import Mathlib

attribute [local semireducible] Rat.mul Rat.add Rat.sub Rat.inv

/-!
Verification of the Vaahan vehicle-registration analytics pipeline.

This file is a shallow embedding of the two core source files:

* `data_processor.py` (`DataProcessor`): `process_registration_data` and its
  stages `_add_rolling_averages`, `_add_growth_rates`, `_add_market_shares`,
  `_add_performance_indicators`, plus the parts of `calculate_growth_metrics`
  under scrutiny.
* `data_collector.py` (`VahanDataCollector._generate_realistic_data`) with its
  factor tables.

Tables are lists of structures, one structure field per dataframe column.
pandas float cells that can hold NaN or a signed infinity are modelled by
`PVal` (exact rational value, NaN, or a signed infinity); arithmetic on them
follows IEEE/pandas conventions (`x/0 = ±inf` for `x ≠ 0`, `0/0 = NaN`,
`NaN` skipped by `sum`/`mean`).  Rational arithmetic idealises float rounding.
The random noise and manufacturer draws of the generator are passed in as
explicit oracles (`Nat → ℚ`, `Nat → String`) indexed by row number, matching
the per-row consumption order of the Python loop.

Columns that are derived from `date` but never read downstream by the claims
(`quarter`, `week`, `day_of_week`, `month_name`) are omitted; they are pure
functions of the untouched `date` field.  pandas `sort_values` uses an
unstable `quicksort`; the order of rows with identical `(state, category,
date)` keys is therefore unspecified in the source, and this embedding
determinises it with a stable insertion sort (no claim depends on tie order).
-/

/-- A pandas float cell: an exact value, NaN (missing), or a signed infinity. -/
inductive PVal where
  | nan : PVal
  | inf : PVal
  | ninf : PVal
  | val : ℚ → PVal
deriving DecidableEq

/-- IEEE-style division producing a `PVal`, as numpy/pandas perform it on
(possibly integer-valued) float columns: `a/0` is `NaN` for `a = 0` and a
signed infinity otherwise. -/
def qdivP (a b : ℚ) : PVal :=
  if b = 0 then (if a = 0 then .nan else if 0 < a then .inf else .ninf)
  else .val (a / b)

/-- Multiplication of a pandas cell by the literal constant 100 (the `* 100`
scaling applied to every growth/share column in the source). -/
def PVal.times100 : PVal → PVal
  | .nan => .nan
  | .inf => .inf
  | .ninf => .ninf
  | .val q => .val (q * 100)

/-- pandas `pct_change` core: `curr / prev - 1`. -/
def pctChange (curr prev : ℚ) : PVal :=
  match qdivP curr prev with
  | .val q => .val (q - 1)
  | x => x

/-- Lagged percent change (already scaled by 100) over the history `g` of a
group, `g` listing the group's aggregated values up to and including the
current row (last element of `g` = current value).  `pct_change(periods = k)`
yields NaN while fewer than `k + 1` observations exist. -/
def lagPct (g : List ℚ) (k : Nat) : PVal :=
  if g.length ≤ k then PVal.nan
  else (pctChange (g.getD (g.length - 1) 0) (g.getD (g.length - 1 - k) 0)).times100

/-- Test for the NaN cell. -/
def PVal.isNan : PVal → Bool
  | .nan => true
  | _ => false

/-- Test for the +inf cell. -/
def PVal.isInf : PVal → Bool
  | .inf => true
  | _ => false

/-- Test for the -inf cell. -/
def PVal.isNinf : PVal → Bool
  | .ninf => true
  | _ => false

/-- Underlying rational of a finite cell (0 for the non-finite ones). -/
def PVal.unval : PVal → ℚ
  | .val q => q
  | _ => 0

/-- pandas `Series.sum()` with its default `skipna = True`: NaN cells are
skipped (an all-NaN or empty series sums to 0.0), while infinities propagate
as in IEEE arithmetic. -/
def pvalSum (l : List PVal) : PVal :=
  let vs := l.filter (fun p => !p.isNan)
  if vs.any PVal.isInf then (if vs.any PVal.isNinf then .nan else .inf)
  else if vs.any PVal.isNinf then .ninf
  else .val ((vs.map PVal.unval).sum)

/-- pandas `Series.mean()` with `skipna = True`: NaN cells are skipped and the
rest averaged (NaN if nothing remains); infinities propagate. -/
def pvalMean (l : List PVal) : PVal :=
  let vs := l.filter (fun p => !p.isNan)
  if vs.isEmpty then .nan
  else if vs.any PVal.isInf then (if vs.any PVal.isNinf then .nan else .inf)
  else if vs.any PVal.isNinf then .ninf
  else .val ((vs.map PVal.unval).sum / vs.length)

/-- pandas comparison `p > c` on a float cell: False for NaN, sign-correct for
infinities. -/
def pvalGt (p : PVal) (c : ℚ) : Bool :=
  match p with
  | .nan => false
  | .inf => true
  | .ninf => false
  | .val q => decide (c < q)

/-- pandas comparison `p < c` on a float cell. -/
def pvalLt (p : PVal) (c : ℚ) : Bool :=
  match p with
  | .nan => false
  | .inf => false
  | .ninf => true
  | .val q => decide (q < c)

/-- A calendar date (`pd.to_datetime` normalises the raw `date` column to
this).  Chronological order on valid dates is lexicographic on
`(year, month, day)`. -/
structure Date where
  year : Int
  month : Nat
  day : Nat
deriving DecidableEq

/-- Chronological (lexicographic) order on dates. -/
def dateLE (a b : Date) : Prop :=
  a.year < b.year ∨ (a.year = b.year ∧
    (a.month < b.month ∨ (a.month = b.month ∧ a.day ≤ b.day)))

instance : DecidableRel dateLE := fun a b => by
  unfold dateLE
  exact inferInstance

/-- The `'M'` period key of `pd.Series.dt.to_period('M')`: months are totally
ordered by `year * 12 + (month - 1)`; two dates lie in the same monthly period
iff this index agrees. -/
def monthIdx (d : Date) : Int :=
  d.year * 12 + ((d.month : Int) - 1)

/-- One raw observation row as produced by the generator and consumed by
`process_registration_data` (columns `date, state, category, registrations,
manufacturer`; the generator's redundant `month/year/quarter` string columns
are recomputed by the processor and never read from the raw table). -/
structure RawRow where
  date : Date
  state : String
  category : String
  registrations : Int
  manufacturer : String
deriving DecidableEq

/-- Row after `_add_rolling_averages`: the raw columns plus the two trailing
rolling means (always defined, since `min_periods = 1`). -/
structure RowA extends RawRow where
  registrations_7d_avg : ℚ
  registrations_30d_avg : ℚ
deriving DecidableEq

/-- Row after `_add_growth_rates`: three monthly growth columns joined on. -/
structure RowB extends RowA where
  yoy_growth : PVal
  qoq_growth : PVal
  mom_growth : PVal
deriving DecidableEq

/-- Row after `_add_market_shares`. -/
structure RowC extends RowB where
  total_daily_registrations : Int
  category_market_share : PVal
  state_market_share : PVal
deriving DecidableEq

/-- Fully processed row (`volatility_30d`, which is real-valued because of the
square root inside the standard deviation, is kept as a separate parallel
column, see `volatility_column`). -/
structure ProcRow extends RowC where
  performance_vs_30d : PVal
  is_above_average : Bool
  is_high_growth : Bool
  is_declining : Bool
deriving DecidableEq

/-- Lexicographic order on strings (`String.lt` is by definition the
lexicographic order on the underlying character lists; spelling it this way
keeps it kernel-reducible). -/
def strLt (a b : String) : Prop :=
  a.data < b.data

instance : DecidableRel strLt := fun a b => by
  unfold strLt
  exact inferInstance

/-- Sort key order of `sort_values(['state', 'category', 'date'])`. -/
def rowLE (a b : RawRow) : Prop :=
  strLt a.state b.state ∨ (a.state = b.state ∧
    (strLt a.category b.category ∨ (a.category = b.category ∧ dateLE a.date b.date)))

instance : DecidableRel rowLE := fun a b => by
  unfold rowLE
  exact inferInstance

/-- Stable sort by `(state, category, date)` ascending. -/
def sortRows (l : List RawRow) : List RawRow :=
  List.insertionSort rowLE l

/-- Pair every element of a list with the list of elements strictly before it
(in list order).  This is how a pandas grouped *trailing* transform sees the
dataframe: the value at a row depends on the row itself and the rows above
it. -/
def withBefore (acc : List α) : List α → List (List α × α)
  | [] => []
  | x :: xs => (acc, x) :: withBefore (acc ++ [x]) xs

/-- Last `n` elements of a list (the trailing window). -/
def lastN (n : Nat) (l : List α) : List α :=
  l.drop (l.length - n)

/-- Arithmetic mean of a list of rationals (callers guarantee nonemptiness). -/
def qmean (l : List ℚ) : ℚ :=
  l.sum / l.length

/-- Grouping key of the rolling/volatility transforms. -/
def grpKey (r : RawRow) : String × String :=
  (r.state, r.category)

/-- The trailing window of width `w` that `rolling(window = w)` sees at a row
`r` of a `groupby(['state','category'])` transform, `before` being the rows
above `r` in dataframe order. -/
def rollWindow (w : Nat) (before : List RawRow) (r : RawRow) : List ℚ :=
  lastN w (((before.filter (fun x => decide (grpKey x = grpKey r))).map
    (fun x => (x.registrations : ℚ))) ++ [(r.registrations : ℚ)])

/-- The two rolling-average cells of one row (`min_periods = 1`, so the window
always contains at least the row itself and the mean is always defined). -/
def rollingRow (before : List RawRow) (r : RawRow) : RowA :=
  { toRawRow := r
    registrations_7d_avg := qmean (rollWindow 7 before r)
    registrations_30d_avg := qmean (rollWindow 30 before r) }

/-- `_add_rolling_averages`: sort by `(state, category, date)` and attach the
7-day and 30-day trailing means per `(state, category)` group. -/
def add_rolling_averages (l : List RawRow) : List RowA :=
  (withBefore [] (sortRows l)).map (fun p => rollingRow p.1 p.2)

/-- One row of the monthly aggregate
`groupby(['state','category','month'])['registrations'].sum()`. -/
structure MonthlyRow where
  state : String
  category : String
  month : Int
  registrations : Int
deriving DecidableEq

/-- Key of a monthly-aggregate row. -/
def mrKey (m : MonthlyRow) : String × String × Int :=
  (m.state, m.category, m.month)

/-- Monthly key of a (rolling-stage) data row. -/
def mKey (r : RowA) : String × String × Int :=
  (r.state, r.category, monthIdx r.date)

/-- Order on monthly keys (pandas `groupby` sorts the result by key). -/
def keyLE (a b : String × String × Int) : Prop :=
  strLt a.1 b.1 ∨ (a.1 = b.1 ∧ (strLt a.2.1 b.2.1 ∨ (a.2.1 = b.2.1 ∧ a.2.2 ≤ b.2.2)))

instance : DecidableRel keyLE := fun a b => by
  unfold keyLE
  exact inferInstance

/-- Monthly aggregation
`data.groupby(['state','category','month'])['registrations'].sum().reset_index()`:
one row per distinct `(state, category, month)` key, sorted by key (pandas
`groupby` sorts the result by key), holding the sum of `registrations` over
the data rows with that key. -/
def aggKeys (l : List RowA) : List (String × String × Int) :=
  List.insertionSort keyLE (l.map mKey).dedup

/-- The monthly-aggregate row of one key. -/
def aggRow (l : List RowA) (k : String × String × Int) : MonthlyRow :=
  { state := k.1, category := k.2.1, month := k.2.2
    registrations := ((l.filter (fun r => decide (mKey r = k))).map
      (fun r => r.registrations)).sum }

/-- Monthly aggregation, one row per distinct key in sorted key order. -/
def monthly_agg (l : List RowA) : List MonthlyRow :=
  (aggKeys l).map (aggRow l)

/-- Monthly row with the three growth columns attached. -/
structure MGRow extends MonthlyRow where
  yoy_growth : PVal
  qoq_growth : PVal
  mom_growth : PVal
deriving DecidableEq

/-- Group history seen by `pct_change` at a monthly row: the registration sums
of the earlier rows of the same `(state, category)` group, in aggregate order,
with the current row's sum last. -/
def gvals (before : List MonthlyRow) (m : MonthlyRow) : List ℚ :=
  ((before.filter (fun x => decide (x.state = m.state ∧ x.category = m.category))).map
    (fun x => (x.registrations : ℚ))) ++ [(m.registrations : ℚ)]

/-- The three `pct_change` growth cells of one monthly row (lags 12, 3, 1,
each scaled by 100). -/
def growthRow (before : List MonthlyRow) (m : MonthlyRow) : MGRow :=
  { toMonthlyRow := m
    yoy_growth := lagPct (gvals before m) 12
    qoq_growth := lagPct (gvals before m) 3
    mom_growth := lagPct (gvals before m) 1 }

/-- Growth columns over the whole monthly aggregate
(`groupby(['state','category'])['registrations'].pct_change(periods) * 100`
for periods 12, 3 and 1). -/
def monthly_growth (ms : List MonthlyRow) : List MGRow :=
  (withBefore [] ms).map (fun p => growthRow p.1 p.2)

/-- Fallback row for `headD` on the (always nonempty) merge matches. -/
def mgDefault : MGRow :=
  { state := "", category := "", month := 0, registrations := 0
    yoy_growth := .nan, qoq_growth := .nan, mom_growth := .nan }

/-- `_add_growth_rates`: aggregate monthly, compute lagged growth, and left
join the three growth columns back onto every data row by
`(state, category, month)`.  A row whose key is absent from the aggregate
would receive NaN in all three columns (this branch is provably dead, since
every row's key occurs in the aggregate built from the same table). -/
def add_growth_rates (l : List RowA) : List RowB :=
  l.flatMap (fun r =>
    if ((monthly_growth (monthly_agg l)).filter
        (fun x => decide (mrKey x.toMonthlyRow = mKey r))).isEmpty then
      [{ toRowA := r, yoy_growth := .nan, qoq_growth := .nan, mom_growth := .nan }]
    else ((monthly_growth (monthly_agg l)).filter
        (fun x => decide (mrKey x.toMonthlyRow = mKey r))).map (fun m =>
      { toRowA := r, yoy_growth := m.yoy_growth, qoq_growth := m.qoq_growth
        mom_growth := m.mom_growth }))

/-- Per-date total `data.groupby('date')['registrations'].sum()` read off for
one date. -/
def dailyTotalOf (l : List RowB) (d : Date) : Int :=
  ((l.filter (fun r => decide (r.date = d))).map (fun r => r.registrations)).sum

/-- The distinct dates of the table, sorted ascending. -/
def dateKeys (l : List RowB) : List Date :=
  List.insertionSort dateLE (l.map (fun r => r.date)).dedup

/-- The `daily_totals` frame rows, one per distinct date, sorted by date. -/
def daily_totals (l : List RowB) : List (Date × Int) :=
  (dateKeys l).map (fun d => (d, dailyTotalOf l d))

/-- `groupby(['date','state'])['registrations'].transform('sum')` read off for
one `(date, state)` pair. -/
def stateDailySum (l : List RowB) (d : Date) (s : String) : Int :=
  ((l.filter (fun r => decide (r.date = d ∧ r.state = s))).map
    (fun r => r.registrations)).sum

/-- `_add_market_shares`: inner-join the per-date totals onto every row by
date (every row's date is present, so no row is dropped), then derive the
category and state market-share percentages against that per-date total. -/
def add_market_shares (l : List RowB) : List RowC :=
  l.flatMap (fun r =>
    ((daily_totals l).filter (fun p => decide (p.1 = r.date))).map (fun p =>
      { toRowB := r
        total_daily_registrations := p.2
        category_market_share := (qdivP (r.registrations : ℚ) (p.2 : ℚ)).times100
        state_market_share :=
          (qdivP (stateDailySum l r.date r.state : ℚ) (p.2 : ℚ)).times100 }))

/-- One row of `_add_performance_indicators` (without the volatility column,
which lives in `volatility_column`): performance vs the 30-day average and
the three boolean flags.  pandas comparisons with NaN are `False`. -/
def perfRow (r : RowC) : ProcRow :=
  { toRowC := r
    performance_vs_30d := (qdivP ((r.registrations : ℚ) - r.registrations_30d_avg)
      r.registrations_30d_avg).times100
    is_above_average := pvalGt ((qdivP ((r.registrations : ℚ) -
      r.registrations_30d_avg) r.registrations_30d_avg).times100) 0
    is_high_growth := pvalGt r.yoy_growth 15
    is_declining := pvalLt r.yoy_growth (-5) }

def add_performance_indicators (l : List RowC) : List ProcRow :=
  l.map perfRow

/-- `DataProcessor.process_registration_data`: the four stages in source
order.  The input list is consumed by value; the caller's table is untouched
(the source starts from `raw_data.copy()`). -/
def process_registration_data (raw : List RawRow) : List ProcRow :=
  add_performance_indicators (add_market_shares (add_growth_rates
    (add_rolling_averages raw)))

/-- A real-valued pandas float cell, for the volatility column whose values
involve a square root. -/
inductive RVal where
  | nan : RVal
  | inf : RVal
  | val : ℝ → RVal

/-- Sample variance with `ddof = 1` (the pandas `rolling.std` default) of a
window, as an exact rational.  A one-element window never reaches the places
this is used (`min_periods = 10`). -/
def sampleVar (w : List ℚ) : ℚ :=
  ((w.map (fun x => (x - qmean w) ^ 2)).sum) / ((w.length : ℚ) - 1)

/-- The cell `rolling.std() / rolling.mean()` given the window's sample
variance `v` (which is nonnegative) and mean `μ`: `std = √v`, and float
division by a zero mean gives NaN for a zero std and +inf otherwise. -/
noncomputable def volVal (v μ : ℚ) : RVal :=
  if μ = 0 then (if v = 0 then .nan else .inf)
  else .val (Real.sqrt (v : ℝ) / (μ : ℝ))

/-- Group key of a processed row (the volatility transform groups the final
dataframe by `['state', 'category']`). -/
def pKey (r : ProcRow) : String × String :=
  (r.state, r.category)

/-- The trailing 30-observation window of `registrations` seen by the
volatility transform at row `r`, `before` being the rows above it. -/
def volWindow (before : List ProcRow) (r : ProcRow) : List ℚ :=
  lastN 30 (((before.filter (fun x => decide (pKey x = pKey r))).map
    (fun x => (x.registrations : ℚ))) ++ [(r.registrations : ℚ)])

/-- The `volatility_30d` cell of one row:
`rolling(window=30, min_periods=10).std() / rolling(window=30, min_periods=10).mean()`,
NaN while the window holds fewer than 10 observations. -/
noncomputable def volAt (before : List ProcRow) (r : ProcRow) : RVal :=
  let w := volWindow before r
  if w.length < 10 then .nan
  else volVal (sampleVar w) (qmean w)

/-- The `volatility_30d` column of the processed table, aligned with its
rows. -/
noncomputable def volatility_column (l : List ProcRow) : List RVal :=
  (withBefore [] l).map (fun p => volAt p.1 p.2)

/-- The `year` column of the processed table (derived from the untouched
`date` field). -/
def rowYear (r : ProcRow) : Int :=
  r.date.year

/-- Registration sum over the processed rows of one calendar year. -/
def yearSum (l : List ProcRow) (y : Int) : Int :=
  ((l.filter (fun r => decide (rowYear r = y))).map (fun r => r.registrations)).sum

/-- `metrics['total_yoy_growth']` of `calculate_growth_metrics`:
`(current-year total - previous-year total) / previous-year total * 100`
with `current_year = data['year'].max()`, or 0 when the previous calendar
year has no rows (also on an empty table, where every year filter is
empty). -/
def total_yoy_growth (l : List ProcRow) : PVal :=
  match (l.map rowYear).max? with
  | none => .val 0
  | some cy =>
    if (l.filter (fun r => decide (rowYear r = cy - 1))).isEmpty then .val 0
    else
      (qdivP ((yearSum l cy : ℚ) - (yearSum l (cy - 1) : ℚ))
        (yearSum l (cy - 1) : ℚ)).times100

/-- `metrics['category_yoy_growth'][c]`:
`data.groupby('category')['yoy_growth'].mean().fillna(0)` read off at one
category — the NaN-skipping mean of the category's `yoy_growth` cells, with an
all-NaN (hence NaN) mean replaced by 0. -/
def category_yoy_growth (l : List ProcRow) (c : String) : PVal :=
  match pvalMean ((l.filter (fun r => decide (r.category = c))).map
    (fun r => r.yoy_growth)) with
  | .nan => .val 0
  | x => x

/-- Leap-year test of the Gregorian calendar. -/
def isLeap (y : Int) : Bool :=
  y % 4 = 0 && (y % 100 ≠ 0 || y % 400 = 0)

/-- Number of days of month `m` of year `y`. -/
def daysInMonth (y : Int) (m : Nat) : Nat :=
  if m = 2 then (if isLeap y then 29 else 28)
  else if m = 4 ∨ m = 6 ∨ m = 9 ∨ m = 11 then 30
  else 31

/-- Successor day in the calendar. -/
def nextDate (d : Date) : Date :=
  if d.day < daysInMonth d.year d.month then ⟨d.year, d.month, d.day + 1⟩
  else if d.month < 12 then ⟨d.year, d.month + 1, 1⟩
  else ⟨d.year + 1, 1, 1⟩

/-- Iterate `nextDate` from `cur` while `cur ≤ last`, bounded by fuel. -/
def dateRangeAux : Nat → Date → Date → List Date
  | 0, _, _ => []
  | n + 1, cur, last =>
    if dateLE cur last then cur :: dateRangeAux n (nextDate cur) last else []

/-- `pd.date_range(start, end, freq='D')`: the inclusive run of days from
`s` to `e` (empty when `s > e`).  The fuel bounds the number of days of the
range and is never the reason iteration stops on meaningful inputs. -/
def dateRange (s e : Date) : List Date :=
  dateRangeAux ((e.year - s.year + 1).toNat * 366 + 400) s e

/-- The fixed five-state fallback of `_generate_realistic_data`. -/
def defaultStates : List String :=
  ["Maharashtra", "Karnataka", "Tamil Nadu", "Gujarat", "Uttar Pradesh"]

/-- The fixed category fallback of `_generate_realistic_data`. -/
def defaultCategories : List String :=
  ["2W", "3W", "4W"]

/-- `_get_base_registrations`: fixed per-category base rates, 1000 for an
unknown category. -/
def baseRegistrations (c : String) : ℚ :=
  if c = "2W" then 15000
  else if c = "3W" then 1200
  else if c = "4W" then 8000
  else if c = "Commercial" then 2500
  else if c = "Others" then 800
  else 1000

/-- `_get_seasonal_factor`: the fixed 12-entry monthly multiplier table. -/
def seasonalFactor (m : Nat) : ℚ :=
  if m = 1 then 9/10 else if m = 2 then 17/20
  else if m = 3 then 11/10 else if m = 4 then 23/20
  else if m = 5 then 19/20 else if m = 6 then 4/5
  else if m = 7 then 3/4 else if m = 8 then 4/5
  else if m = 9 then 1 else if m = 10 then 13/10
  else if m = 11 then 7/5 else if m = 12 then 6/5
  else 1

/-- `_get_growth_factor` annual rates (0.10 for an unknown category). -/
def annualGrowthRate (c : String) : ℚ :=
  if c = "2W" then 8/100
  else if c = "3W" then 12/100
  else if c = "4W" then 15/100
  else if c = "Commercial" then 6/100
  else 10/100

/-- Power with natural exponent, by structural recursion (kept explicit so
that concrete instances reduce in the kernel). -/
def qnpow (q : ℚ) : Nat → ℚ
  | 0 => 1
  | n + 1 => q * qnpow q n

/-- Python `x ** n` for a rational base and integer exponent: repeated
multiplication, reciprocal for negative exponents. -/
def qzpow (q : ℚ) : Int → ℚ
  | .ofNat n => qnpow q n
  | .negSucc n => (qnpow q (n + 1))⁻¹

/-- `_get_growth_factor`: compound factor `(1 + rate) ** (year - 2020)`. -/
def growthFactor (y : Int) (c : String) : ℚ :=
  qzpow (1 + annualGrowthRate c) (y - 2020)

/-- `_get_state_factor`: fixed per-state factors, 0.8 for an unknown state. -/
def stateFactor (s : String) : ℚ :=
  if s = "Maharashtra" then 12/10
  else if s = "Karnataka" then 1
  else if s = "Tamil Nadu" then 11/10
  else if s = "Gujarat" then 9/10
  else if s = "Uttar Pradesh" then 13/10
  else if s = "Rajasthan" then 8/10
  else if s = "West Bengal" then 85/100
  else if s = "Telangana" then 75/100
  else if s = "Haryana" then 7/10
  else if s = "Delhi" then 6/10
  else if s = "Punjab" then 65/100
  else if s = "Madhya Pradesh" then 8/10
  else 8/10

/-- Python `int(x)` on a real-valued `x`: truncation toward zero.  On a
rational in lowest terms this is the toward-zero integer division of the
numerator by the denominator. -/
def truncQ (q : ℚ) : Int :=
  q.num.tdiv (q.den : Int)

/-- The raw product the generator multiplies before truncating, in source
order `base * seasonal * growth * noise * state_factor` (`noise` is the row's
`np.random.normal(1, 0.1)` draw, supplied by the oracle). -/
def genProduct (d : Date) (st c : String) (noise : ℚ) : ℚ :=
  baseRegistrations c * seasonalFactor d.month * growthFactor d.year c *
    noise * stateFactor st

/-- One generated row: `registrations = max(0, int(product))`, with the
manufacturer drawn by the per-row oracle. -/
def genRow (noise : Nat → ℚ) (mfr : Nat → String) (i : Nat)
    (t : Date × String × String) : RawRow :=
  { date := t.1, state := t.2.1, category := t.2.2
    registrations := max 0 (truncQ (genProduct t.1 t.2.1 t.2.2 (noise i)))
    manufacturer := mfr i }

/-- The loop order of `_generate_realistic_data`: dates outermost, then
states, then categories. -/
def genTriples (s e : Date) (sts cats : List String) :
    List (Date × String × String) :=
  (dateRange s e).flatMap (fun d =>
    sts.flatMap (fun st => cats.map (fun c => (d, st, c))))

/-- `_generate_realistic_data`: empty (or omitted, i.e. `None` — both falsy)
state and category lists fall back to the fixed defaults; one row is emitted
per `(date, state, category)` triple in loop order, rows consuming the noise
and manufacturer oracles by row index. -/
def generate_realistic_data (s e : Date) (states cats : List String)
    (noise : Nat → ℚ) (mfr : Nat → String) : List RawRow :=
  let sts := if states.isEmpty then defaultStates else states
  let cs := if cats.isEmpty then defaultCategories else cats
  (genTriples s e sts cs).enum.map (fun p => genRow noise mfr p.1 p.2)

/-! ### Infrastructure lemmas about the grouped-transform combinators -/

theorem withBefore_map_snd (l : List α) :
    ∀ acc, (withBefore acc l).map Prod.snd = l := by
  induction l with
  | nil => intro acc; rfl
  | cons x xs ih => intro acc; simp [withBefore, ih]

theorem length_withBefore (acc : List α) (l : List α) :
    (withBefore acc l).length = l.length := by
  conv_rhs => rw [← withBefore_map_snd l acc]
  rw [List.length_map]

theorem flatMap_eq_map_of_forall {f : α → List β} {g : α → β} :
    ∀ {l : List α}, (∀ a ∈ l, f a = [g a]) → l.flatMap f = l.map g := by
  intro l
  induction l with
  | nil => intro _; rfl
  | cons x xs ih =>
    intro h
    rw [List.flatMap_cons, List.map_cons, h x (by simp),
      ih (fun a ha => h a (by simp [ha])), List.singleton_append]

theorem filter_key_eq_singleton {κ : Type} [DecidableEq κ] (key : α → κ)
    (l : List α) (a : α) (ha : a ∈ l) (hnd : (l.map key).Nodup) :
    l.filter (fun x => decide (key x = key a)) = [a] := by
  induction l with
  | nil => cases ha
  | cons b t ih =>
    rw [List.map_cons, List.nodup_cons] at hnd
    rcases List.mem_cons.mp ha with h | h
    · subst h
      have ht : t.filter (fun x => decide (key x = key a)) = [] := by
        apply List.filter_eq_nil_iff.mpr
        intro x hx hk
        exact hnd.1 ((of_decide_eq_true hk) ▸ List.mem_map_of_mem key hx)
      simp [List.filter_cons, ht]
    · have hb : ¬ key b = key a := fun he =>
        hnd.1 (he ▸ List.mem_map_of_mem key h)
      simp [List.filter_cons, hb, ih h hnd.2]

theorem filter_by_key_singleton {κ : Type} [DecidableEq κ] (key : α → κ)
    (l : List α) (k : κ) (hk : k ∈ l.map key) (hnd : (l.map key).Nodup) :
    ∃ a, a ∈ l ∧ key a = k ∧ l.filter (fun x => decide (key x = k)) = [a] := by
  rcases List.mem_map.mp hk with ⟨a, ha, hka⟩
  refine ⟨a, ha, hka, ?_⟩
  rw [← hka]
  exact filter_key_eq_singleton key l a ha hnd

/-! ### Key sets of the two aggregate frames -/

theorem monthly_agg_map_key (l : List RowA) :
    (monthly_agg l).map mrKey = aggKeys l := by
  unfold monthly_agg
  rw [List.map_map]
  exact List.map_id (aggKeys l)

theorem nodup_aggKeys (l : List RowA) : (aggKeys l).Nodup :=
  ((List.perm_insertionSort keyLE (l.map mKey).dedup).nodup_iff).mpr
    (List.nodup_dedup (l.map mKey))

theorem mem_aggKeys {l : List RowA} {r : RowA} (hr : r ∈ l) :
    mKey r ∈ aggKeys l :=
  ((List.perm_insertionSort keyLE (l.map mKey).dedup).mem_iff).mpr
    (List.mem_dedup.mpr (List.mem_map_of_mem mKey hr))

theorem monthly_growth_map_key (ms : List MonthlyRow) :
    (monthly_growth ms).map (fun x => mrKey x.toMonthlyRow) = ms.map mrKey := by
  unfold monthly_growth
  rw [List.map_map]
  have h : ((fun x : MGRow => mrKey x.toMonthlyRow) ∘
      (fun p : List MonthlyRow × MonthlyRow => growthRow p.1 p.2)) =
      (mrKey ∘ Prod.snd) := rfl
  rw [h, ← List.map_map, withBefore_map_snd]

theorem mg_keys (l : List RowA) :
    (monthly_growth (monthly_agg l)).map (fun x => mrKey x.toMonthlyRow) =
      aggKeys l := by
  rw [monthly_growth_map_key, monthly_agg_map_key]

theorem daily_totals_map_fst (l : List RowB) :
    (daily_totals l).map Prod.fst = dateKeys l := by
  unfold daily_totals
  rw [List.map_map]
  exact List.map_id (dateKeys l)

theorem nodup_dateKeys (l : List RowB) : (dateKeys l).Nodup := by
  unfold dateKeys
  exact ((List.perm_insertionSort dateLE _).nodup_iff).mpr
    (List.nodup_dedup (l.map (fun r => r.date)))

theorem mem_dateKeys {l : List RowB} {r : RowB} (hr : r ∈ l) :
    r.date ∈ dateKeys l := by
  unfold dateKeys
  exact ((List.perm_insertionSort dateLE _).mem_iff).mpr
    (List.mem_dedup.mpr (List.mem_map_of_mem (fun x => x.date) hr))

/-! ### The two joins match every row to exactly one aggregate row -/

/-- The unique monthly-growth row matching a data row's key (the join image
of `_add_growth_rates` at that row). -/
def growthFor (l : List RowA) (r : RowA) : MGRow :=
  ((monthly_growth (monthly_agg l)).filter
    (fun x => decide (mrKey x.toMonthlyRow = mKey r))).headD mgDefault

/-- The joined row of `_add_growth_rates` at one data row. -/
def growthJoinRow (l : List RowA) (r : RowA) : RowB :=
  { toRowA := r
    yoy_growth := (growthFor l r).yoy_growth
    qoq_growth := (growthFor l r).qoq_growth
    mom_growth := (growthFor l r).mom_growth }

theorem growth_filter_eq {l : List RowA} {r : RowA} (hr : r ∈ l) :
    ∃ m, (monthly_growth (monthly_agg l)).filter
      (fun x => decide (mrKey x.toMonthlyRow = mKey r)) = [m] := by
  obtain ⟨m, _, _, hf⟩ := filter_by_key_singleton (fun x => mrKey x.toMonthlyRow)
    (monthly_growth (monthly_agg l)) (mKey r)
    (by rw [mg_keys]; exact mem_aggKeys hr)
    (by rw [mg_keys]; exact nodup_aggKeys l)
  exact ⟨m, hf⟩

theorem add_growth_rates_eq_map (l : List RowA) :
    add_growth_rates l = l.map (growthJoinRow l) := by
  unfold add_growth_rates
  apply flatMap_eq_map_of_forall
  intro r hr
  obtain ⟨m, hf⟩ := growth_filter_eq hr
  rw [hf]
  simp [growthJoinRow, growthFor, hf]

/-- The joined row of `_add_market_shares` at one data row. -/
def marketJoinRow (l : List RowB) (r : RowB) : RowC :=
  { toRowB := r
    total_daily_registrations := dailyTotalOf l r.date
    category_market_share :=
      (qdivP (r.registrations : ℚ) (dailyTotalOf l r.date : ℚ)).times100
    state_market_share :=
      (qdivP (stateDailySum l r.date r.state : ℚ)
        (dailyTotalOf l r.date : ℚ)).times100 }

theorem daily_filter_eq {l : List RowB} {r : RowB} (hr : r ∈ l) :
    (daily_totals l).filter (fun p => decide (p.1 = r.date)) =
      [(r.date, dailyTotalOf l r.date)] := by
  have hmem : (r.date, dailyTotalOf l r.date) ∈ daily_totals l :=
    List.mem_map_of_mem (fun d => (d, dailyTotalOf l d)) (mem_dateKeys hr)
  have hnd : ((daily_totals l).map Prod.fst).Nodup := by
    rw [daily_totals_map_fst]; exact nodup_dateKeys l
  exact filter_key_eq_singleton Prod.fst (daily_totals l)
    (r.date, dailyTotalOf l r.date) hmem hnd

theorem add_market_shares_eq_map (l : List RowB) :
    add_market_shares l = l.map (marketJoinRow l) := by
  unfold add_market_shares
  apply flatMap_eq_map_of_forall
  intro r hr
  rw [daily_filter_eq hr]
  rfl

/-! ### Sum and mean arithmetic lemmas -/

theorem sum_filter_partition {p : α → Bool} (v : α → Int) (l : List α) :
    ((l.filter p).map v).sum + ((l.filter (fun a => !p a)).map v).sum
      = (l.map v).sum := by
  induction l with
  | nil => rfl
  | cons a t ih =>
    cases hpa : p a <;>
      simp only [List.filter_cons, hpa, Bool.not_true, Bool.not_false,
        cond_true, cond_false, if_pos, if_neg, List.map_cons, List.sum_cons,
        Bool.false_eq_true, ite_false, ite_true] <;>
      omega

theorem sum_fibers_of_nodup {κ : Type} [DecidableEq κ] (key : α → κ)
    (v : α → Int) :
    ∀ (K : List κ) (L : List α), K.Nodup → (∀ a ∈ L, key a ∈ K) →
      (K.map (fun k =>
        ((L.filter (fun a => decide (key a = k))).map v).sum)).sum
        = (L.map v).sum := by
  intro K
  induction K with
  | nil =>
    intro L _ hL
    cases L with
    | nil => rfl
    | cons a t => exact absurd (hL a (by simp)) (by simp)
  | cons k K ih =>
    intro L hnd hL
    rw [List.map_cons, List.sum_cons]
    have hcong : ∀ x ∈ K,
        (L.filter (fun a => decide (key a = x))).map v =
        ((L.filter (fun a => !decide (key a = k))).filter
          (fun a => decide (key a = x))).map v := by
      intro x hx
      have hxk : x ≠ k := by
        rintro rfl
        exact (List.nodup_cons.mp hnd).1 hx
      rw [List.filter_filter]
      congr 1
      apply List.filter_congr
      intro a _
      by_cases h : key a = x
      · simp [h, hxk]
      · simp [h]
    have hmapc : K.map (fun x =>
        ((L.filter (fun a => decide (key a = x))).map v).sum) =
        K.map (fun x =>
        (((L.filter (fun a => !decide (key a = k))).filter
          (fun a => decide (key a = x))).map v).sum) := by
      apply List.map_congr_left
      intro x hx
      rw [hcong x hx]
    rw [hmapc, ih (L.filter (fun a => !decide (key a = k)))
      (List.nodup_cons.mp hnd).2 ?_]
    · exact sum_filter_partition v L
    · intro a ha
      have ha2 := List.of_mem_filter ha
      have ha1 := List.mem_of_mem_filter ha
      rcases List.mem_cons.mp (hL a ha1) with h | h
      · exact absurd (decide_eq_true h) (by simpa using ha2)
      · exact h

theorem sum_dedup_fibers {κ : Type} [DecidableEq κ] (key : α → κ)
    (v : α → Int) (L : List α) :
    (((L.map key).dedup).map (fun k =>
      ((L.filter (fun a => decide (key a = k))).map v).sum)).sum
      = (L.map v).sum :=
  sum_fibers_of_nodup key v (L.map key).dedup L (List.nodup_dedup _)
    (fun _a ha => List.mem_dedup.mpr (List.mem_map_of_mem key ha))

theorem pvalSum_map_val (f : α → ℚ) (l : List α) :
    pvalSum (l.map (fun a => PVal.val (f a))) = PVal.val ((l.map f).sum) := by
  unfold pvalSum
  have h1 : (l.map (fun a => PVal.val (f a))).filter (fun p => !p.isNan) =
      l.map (fun a => PVal.val (f a)) := by
    apply List.filter_eq_self.mpr
    intro p hp
    rcases List.mem_map.mp hp with ⟨_a, _, rfl⟩
    rfl
  have h2 : (l.map (fun a => PVal.val (f a))).any PVal.isInf = false := by
    apply List.any_eq_false.mpr
    intro p hp
    rcases List.mem_map.mp hp with ⟨a, _, rfl⟩
    simp [PVal.isInf]
  have h3 : (l.map (fun a => PVal.val (f a))).any PVal.isNinf = false := by
    apply List.any_eq_false.mpr
    intro p hp
    rcases List.mem_map.mp hp with ⟨a, _, rfl⟩
    simp [PVal.isNinf]
  simp only [h1, h2, h3, Bool.false_eq_true, if_neg, ite_false]
  rw [List.map_map]
  rfl

theorem qmean_singleton (x : ℚ) : qmean [x] = x := by
  simp [qmean]

theorem qmean_const {C : ℚ} (l : List ℚ) (hne : l ≠ []) (h : ∀ x ∈ l, x = C) :
    qmean l = C := by
  have hrep := List.eq_replicate_of_mem h
  have hlen : (l.length : ℚ) ≠ 0 := by
    have hz : l.length ≠ 0 := fun h0 => hne (List.length_eq_zero.mp h0)
    exact_mod_cast hz
  rw [qmean]
  conv_lhs => rw [hrep]
  rw [List.sum_replicate, nsmul_eq_mul]
  field_simp

theorem getD_concat (xs : List α) (a d : α) :
    (xs ++ [a]).getD xs.length d = a := by
  rw [List.getD_append_right xs [a] d xs.length (le_refl _)]
  simp

theorem sampleVar_const {C : ℚ} (l : List ℚ) (hne : l ≠ [])
    (h : ∀ x ∈ l, x = C) : sampleVar l = 0 := by
  unfold sampleVar
  have hm := qmean_const l hne h
  have hz : (l.map (fun x => (x - qmean l) ^ 2)).sum = 0 := by
    apply List.sum_eq_zero
    intro q hq
    rcases List.mem_map.mp hq with ⟨x, hx, rfl⟩
    rw [h x hx, hm]
    ring
  rw [hz, zero_div]

/-! ### Claims -/

/-- C10: for every raw table, `process_registration_data` returns exactly as
many rows as the input: the monthly-growth left join and the daily-totals
join each match every row to exactly one aggregate row (proved via the
map-form lemmas `add_growth_rates_eq_map` and `add_market_shares_eq_map`,
whose proofs exhibit the unique match), so no input row is dropped or
duplicated.  The input list itself is untouched: the embedding is pure, as is
the source, which starts from `raw_data.copy()`. -/
theorem C10_process_preserves_row_count (raw : List RawRow) :
    (process_registration_data raw).length = raw.length := by
  unfold process_registration_data add_performance_indicators
  rw [List.length_map, add_market_shares_eq_map, List.length_map,
    add_growth_rates_eq_map, List.length_map]
  unfold add_rolling_averages
  rw [List.length_map, length_withBefore]
  unfold sortRows
  exact List.length_insertionSort rowLE raw

/-- C8: `process_registration_data` (together with its parallel
`volatility_30d` column) is deterministic — two runs on equal raw tables give
equal processed tables.  In this embedding the whole pipeline is a pure
function consuming no random source, exactly as in the source, so
determinism is a consequence of functionality. -/
theorem C8_process_deterministic (d1 d2 : List RawRow) (h : d1 = d2) :
    process_registration_data d1 = process_registration_data d2 ∧
    volatility_column (process_registration_data d1) =
      volatility_column (process_registration_data d2) := by
  subst h
  exact ⟨rfl, rfl⟩

/-- Concrete raw table for the C8 witness. -/
def c8raw : List RawRow :=
  [{ date := ⟨2023, 5, 2⟩, state := "Gujarat", category := "4W",
     registrations := 7, manufacturer := "Tata Motors" }]

/-- Witness instantiating `C8_process_deterministic` at a concrete table. -/
theorem C8_process_deterministic_witness :
    process_registration_data c8raw = process_registration_data c8raw ∧
    volatility_column (process_registration_data c8raw) =
      volatility_column (process_registration_data c8raw) :=
  C8_process_deterministic c8raw c8raw rfl

/-- C9: calling the generator with `states = []` (the source treats `None`
and `[]` alike, both being falsy) and `categories = []` makes it use the
default five states and the default `{2W, 3W, 4W}` categories, and the
output then carries exactly one row per `(date, state, category)` triple of
the cartesian product of the inclusive date range with those defaults, in
loop order. -/
theorem C9_generator_defaults (s e : Date) (noise : Nat → ℚ)
    (mfr : Nat → String) :
    (generate_realistic_data s e [] [] noise mfr).map
      (fun r => (r.date, r.state, r.category)) =
      (dateRange s e).flatMap (fun d => defaultStates.flatMap
        (fun st => defaultCategories.map (fun c => (d, st, c)))) := by
  have h0 : generate_realistic_data s e [] [] noise mfr =
      (genTriples s e defaultStates defaultCategories).enum.map
        (fun p => genRow noise mfr p.1 p.2) := rfl
  rw [h0, List.map_map]
  have h : ((fun r : RawRow => (r.date, r.state, r.category)) ∘
      (fun p : Nat × (Date × String × String) => genRow noise mfr p.1 p.2)) =
      Prod.snd := rfl
  rw [h, List.enum_map_snd]
  rfl

/-- Noise oracle for the C4 counterexample: every row draws `1/5000`.  At
this draw the generated product is `15000 * 0.9 * 1 * (1/5000) * 1.0 = 2.7`,
which Python `int()` truncates to 2 while `round` would give 3. -/
def c4noise : Nat → ℚ := fun _ => 1/5000

/-- Manufacturer oracle for the C4 counterexample. -/
def c4mfr : Nat → String := fun _ => "Hero MotoCorp"

/-- C4 counterexample: the code computes
`int(base * seasonal * growth * noise * state_factor)` — truncation toward
zero — not `round(...)` as the claim states.  On 2020-01-01, Karnataka, 2W,
noise `1/5000`, the product is `2.7`: the generated row holds 2, while the
claimed formula `round` gives 3. -/
theorem C4_counterexample_trunc_vs_round :
    (generate_realistic_data ⟨2020, 1, 1⟩ ⟨2020, 1, 1⟩ ["Karnataka"] ["2W"]
      c4noise c4mfr).map (fun r => r.registrations) = [2] ∧
    max (0 : ℤ) (round (genProduct ⟨2020, 1, 1⟩ "Karnataka" "2W" (1/5000))) = 3 := by
  constructor
  · decide
  · have h : genProduct ⟨2020, 1, 1⟩ "Karnataka" "2W" (1/5000) = 27/10 := by
      decide
    rw [h]
    norm_num [round_eq]

/-- C4 as amended: every generated row's `registrations` is
`max(0, int(product))` where `int` truncates toward zero (not `round`), the
product being `base(category) * seasonal(month) * growth(year, category) *
noise * state_factor(state)` with `noise` the row's oracle draw; in
particular every generated registrations value is a nonnegative integer. -/
theorem C4_registrations_formula (noise : Nat → ℚ) (mfr : Nat → String) :
    (∀ (i : Nat) (d : Date) (st c : String),
      (genRow noise mfr i (d, st, c)).registrations =
        max 0 (truncQ (baseRegistrations c * seasonalFactor d.month *
          growthFactor d.year c * noise i * stateFactor st))) ∧
    (∀ (s e : Date) (sts cats : List String) (row : RawRow),
      row ∈ generate_realistic_data s e sts cats noise mfr →
      0 ≤ row.registrations) := by
  constructor
  · intro i d st c
    rfl
  · intro s e sts cats row hrow
    unfold generate_realistic_data at hrow
    rcases List.mem_map.mp hrow with ⟨p, _, rfl⟩
    exact le_max_left 0 _

/-- Witness instantiating `C4_registrations_formula`: the formula at a
concrete row, and nonnegativity at a member of a concrete generated table. -/
theorem C4_registrations_formula_witness :
    (genRow c4noise c4mfr 0 (⟨2020, 1, 1⟩, "Karnataka", "2W")).registrations =
      max 0 (truncQ (baseRegistrations "2W" * seasonalFactor 1 *
        growthFactor 2020 "2W" * c4noise 0 * stateFactor "Karnataka")) ∧
    0 ≤ ((generate_realistic_data ⟨2020, 1, 1⟩ ⟨2020, 1, 1⟩ ["Karnataka"] ["2W"]
      c4noise c4mfr).headD
        { date := ⟨2020, 1, 1⟩, state := "", category := "",
          registrations := 0, manufacturer := "" }).registrations :=
  ⟨(C4_registrations_formula c4noise c4mfr).1 0 ⟨2020, 1, 1⟩ "Karnataka" "2W",
   (C4_registrations_formula c4noise c4mfr).2 ⟨2020, 1, 1⟩ ⟨2020, 1, 1⟩
     ["Karnataka"] ["2W"] _ (by decide)⟩

/-- C5: in the table sorted by `(state, category, date)`, a row preceded by
no row of its `(state, category)` group (the first row of its group) has both
`registrations_7d_avg` and `registrations_30d_avg` equal to its own
`registrations` — the trailing window of `min_periods = 1` shrinks to the row
itself. -/
theorem C5_rolling_first_row_of_group (l : List RawRow) (pre : List RawRow)
    (r : RawRow) (hmem : (pre, r) ∈ withBefore [] (sortRows l))
    (hfirst : pre.filter (fun x => decide (grpKey x = grpKey r)) = []) :
    rollingRow pre r ∈ add_rolling_averages l ∧
    (rollingRow pre r).registrations_7d_avg = (r.registrations : ℚ) ∧
    (rollingRow pre r).registrations_30d_avg = (r.registrations : ℚ) := by
  have hwin : ∀ w : Nat, w ≠ 0 → rollWindow w pre r = [(r.registrations : ℚ)] := by
    intro w hw
    unfold rollWindow
    rw [hfirst]
    have h1 : 1 - w = 0 := by omega
    simp [lastN, h1]
  refine ⟨?_, ?_, ?_⟩
  · unfold add_rolling_averages
    exact List.mem_map_of_mem (fun p => rollingRow p.1 p.2) hmem
  · show qmean (rollWindow 7 pre r) = (r.registrations : ℚ)
    rw [hwin 7 (by omega), qmean_singleton]
  · show qmean (rollWindow 30 pre r) = (r.registrations : ℚ)
    rw [hwin 30 (by omega), qmean_singleton]

/-- Concrete raw table for the C5 witness (two rows of one group). -/
def c5raw : List RawRow :=
  [{ date := ⟨2022, 4, 1⟩, state := "Tamil Nadu", category := "3W",
     registrations := 100, manufacturer := "Bajaj" },
   { date := ⟨2022, 4, 2⟩, state := "Tamil Nadu", category := "3W",
     registrations := 60, manufacturer := "TVS" }]

/-- Witness instantiating `C5_rolling_first_row_of_group` at the first row of
the (single) group of `c5raw`. -/
theorem C5_rolling_first_row_witness :
    rollingRow [] (c5raw.headD
      { date := ⟨2022, 4, 1⟩, state := "", category := "",
        registrations := 0, manufacturer := "" }) ∈
      add_rolling_averages c5raw ∧
    (rollingRow [] (c5raw.headD
      { date := ⟨2022, 4, 1⟩, state := "", category := "",
        registrations := 0, manufacturer := "" })).registrations_7d_avg = (100 : ℚ) ∧
    (rollingRow [] (c5raw.headD
      { date := ⟨2022, 4, 1⟩, state := "", category := "",
        registrations := 0, manufacturer := "" })).registrations_30d_avg = (100 : ℚ) :=
  C5_rolling_first_row_of_group c5raw [] _ (by decide) (by decide)

/-- C7: `total_yoy_growth` of `calculate_growth_metrics`.  With
`current_year = data['year'].max()`, if the preceding calendar year has rows
and a nonzero registration sum, the metric is
`(current-year sum - previous-year sum) / previous-year sum * 100`; if the
preceding year has no rows at all, the metric is 0. -/
theorem C7_total_yoy_growth (l : List ProcRow) (cy : Int)
    (hcy : (l.map rowYear).max? = some cy) :
    ((l.filter (fun r => decide (rowYear r = cy - 1))) = [] →
      total_yoy_growth l = PVal.val 0) ∧
    ((l.filter (fun r => decide (rowYear r = cy - 1))) ≠ [] →
      yearSum l (cy - 1) ≠ 0 →
      total_yoy_growth l = PVal.val
        (((yearSum l cy : ℚ) - (yearSum l (cy - 1) : ℚ)) /
          (yearSum l (cy - 1) : ℚ) * 100)) := by
  unfold total_yoy_growth
  rw [hcy]
  constructor
  · intro h
    show (if (l.filter (fun r => decide (rowYear r = cy - 1))).isEmpty = true
        then PVal.val 0
        else (qdivP ((yearSum l cy : ℚ) - (yearSum l (cy - 1) : ℚ))
          (yearSum l (cy - 1) : ℚ)).times100) = PVal.val 0
    rw [h]
    rfl
  · intro h hz
    show (if (l.filter (fun r => decide (rowYear r = cy - 1))).isEmpty = true
        then PVal.val 0
        else (qdivP ((yearSum l cy : ℚ) - (yearSum l (cy - 1) : ℚ))
          (yearSum l (cy - 1) : ℚ)).times100) = _
    rw [if_neg (fun hemp => h (List.isEmpty_iff.mp hemp))]
    have hzq : ((yearSum l (cy - 1) : ℤ) : ℚ) ≠ 0 := Int.cast_ne_zero.mpr hz
    unfold qdivP
    rw [if_neg hzq]
    rfl

/-- Concrete raw table for the C7 witness: one state, one category, two
calendar years with sums 1000 and 1200. -/
def c7raw : List RawRow :=
  [{ date := ⟨2021, 6, 1⟩, state := "Maharashtra", category := "2W",
     registrations := 1000, manufacturer := "Hero MotoCorp" },
   { date := ⟨2022, 6, 1⟩, state := "Maharashtra", category := "2W",
     registrations := 1200, manufacturer := "Hero MotoCorp" }]

/-- Single-year raw table for the no-previous-year part of the C7 witness. -/
def c7rawOne : List RawRow :=
  [{ date := ⟨2022, 6, 1⟩, state := "Maharashtra", category := "2W",
     registrations := 1200, manufacturer := "Hero MotoCorp" }]

/-- Witness instantiating `C7_total_yoy_growth`: on the processed two-year
1000/1200 table the metric is 20.0, and on a single-year table it is 0. -/
theorem C7_total_yoy_growth_witness :
    total_yoy_growth (process_registration_data c7raw) = PVal.val 20 ∧
    total_yoy_growth (process_registration_data c7rawOne) = PVal.val 0 := by
  constructor
  · have h := (C7_total_yoy_growth (process_registration_data c7raw) 2022
      (by decide)).2 (by decide) (by decide)
    rw [h]
    decide
  · exact (C7_total_yoy_growth (process_registration_data c7rawOne) 2022
      (by decide)).1 (by decide)

/-- Raw table for the C1 counterexample: one `(state, category)` series with
a January monthly sum of 0 followed by a February monthly sum of 50. -/
def c1raw : List RawRow :=
  [{ date := ⟨2021, 1, 15⟩, state := "Maharashtra", category := "2W",
     registrations := 0, manufacturer := "Hero MotoCorp" },
   { date := ⟨2021, 2, 15⟩, state := "Maharashtra", category := "2W",
     registrations := 50, manufacturer := "Hero MotoCorp" }]

/-- C1 counterexample: on `c1raw` the February monthly aggregate has a
prior-period (lag-1) value of exactly 0 with a nonzero current value, and the
`mom_growth` joined onto the February row is `+inf` — an infinity, not a
missing value, contradicting the claim. -/
theorem C1_counterexample_zero_prior_inf :
    (process_registration_data c1raw).map (fun r => r.mom_growth) =
      [PVal.nan, PVal.inf] ∧ PVal.inf ≠ PVal.nan := by
  constructor
  · decide
  · decide

/-- C1 as amended: a growth cell against a *missing* prior (lag exceeding
the available history) is NaN; against a prior that exists but equals 0,
`pct_change` yields NaN only when the current value is also 0, and a signed
infinity otherwise (`+inf` for a positive current value); pandas means skip
NaN cells but *propagate* infinities (as in
`data.groupby('category')['yoy_growth'].mean()` inside
`calculate_growth_metrics`, embedded as `category_yoy_growth`). -/
theorem C1_growth_edge_semantics :
    (∀ (g : List ℚ) (k : Nat), g.length ≤ k → lagPct g k = PVal.nan) ∧
    (∀ curr prev : ℚ, prev = 0 → curr = 0 → pctChange curr prev = PVal.nan) ∧
    (∀ curr prev : ℚ, prev = 0 → 0 < curr → pctChange curr prev = PVal.inf) ∧
    (∀ l : List PVal, pvalMean (PVal.nan :: l) = pvalMean l) ∧
    (∀ q : ℚ, pvalMean [PVal.inf, PVal.val q] = PVal.inf) := by
  refine ⟨?_, ?_, ?_, ?_, ?_⟩
  · intro g k h
    unfold lagPct
    rw [if_pos h]
  · intro curr prev h1 h2
    subst h1; subst h2
    rfl
  · intro curr prev h1 h2
    subst h1
    unfold pctChange qdivP
    rw [if_pos rfl, if_neg (ne_of_gt h2), if_pos h2]
  · intro l
    unfold pvalMean
    rfl
  · intro q
    rfl

/-- Witness instantiating `C1_growth_edge_semantics` at concrete inputs. -/
theorem C1_growth_edge_semantics_witness :
    lagPct [(3 : ℚ)] 12 = PVal.nan ∧
    pctChange 0 0 = PVal.nan ∧
    pctChange 5 0 = PVal.inf ∧
    pvalMean [PVal.nan, PVal.val 7] = pvalMean [PVal.val 7] ∧
    pvalMean [PVal.inf, PVal.val 7] = PVal.inf :=
  ⟨C1_growth_edge_semantics.1 [3] 12 (by decide),
   C1_growth_edge_semantics.2.1 0 0 rfl rfl,
   C1_growth_edge_semantics.2.2.1 5 0 rfl (by norm_num),
   C1_growth_edge_semantics.2.2.2.1 [PVal.val 7],
   C1_growth_edge_semantics.2.2.2.2 7⟩

/-- C6: the `volatility_30d` cell of a row is NaN whenever its trailing
30-observation window holds fewer than 10 observations (`min_periods = 10`),
and on a row whose whole window consists of a positive constant `C` (a
constant registrations series) it equals 0 once at least 10 observations are
available, since the sample standard deviation of a constant window is 0 and
the window mean is `C > 0`. -/
theorem C6_volatility_constant_series (l : List ProcRow) (pre : List ProcRow)
    (r : ProcRow) (C : ℚ) :
    volatility_column l = (withBefore [] l).map (fun p => volAt p.1 p.2) ∧
    ((volWindow pre r).length < 10 → volAt pre r = RVal.nan) ∧
    (0 < C → (∀ x ∈ volWindow pre r, x = C) →
      10 ≤ (volWindow pre r).length → volAt pre r = RVal.val 0) := by
  refine ⟨rfl, ?_, ?_⟩
  · intro h
    unfold volAt
    rw [if_pos h]
  · intro hC hconst hlen
    unfold volAt
    rw [if_neg (by omega)]
    have hne : volWindow pre r ≠ [] := by
      intro h0
      rw [h0] at hlen
      simp at hlen
    rw [sampleVar_const (volWindow pre r) hne hconst,
      qmean_const (volWindow pre r) hne hconst]
    unfold volVal
    rw [if_neg (ne_of_gt hC)]
    norm_num

/-- Base row for the C6 witness table. -/
def c6base : ProcRow :=
  { date := ⟨2023, 1, 1⟩, state := "Karnataka", category := "4W"
    registrations := 500, manufacturer := "Kia"
    registrations_7d_avg := 500, registrations_30d_avg := 500
    yoy_growth := .nan, qoq_growth := .nan, mom_growth := .nan
    total_daily_registrations := 500
    category_market_share := .val 100, state_market_share := .val 100
    performance_vs_30d := .val 0
    is_above_average := false, is_high_growth := false, is_declining := false }

/-- A constant 10-day processed series for the C6 witness (the volatility
transform reads only `state`, `category` and `registrations`). -/
def c6tbl : List ProcRow :=
  (List.range 10).map (fun i => { c6base with date := ⟨2023, 1, i + 1⟩ })

/-- The 10th row of the constant series. -/
def c6row10 : ProcRow :=
  { c6base with date := ⟨2023, 1, 10⟩ }

/-- Witness instantiating `C6_volatility_constant_series`: at the 3rd row of
the constant series the window holds fewer than 10 observations and the cell
is NaN; at the 10th row (window of 10 constant positive values) the cell
is 0. -/
theorem C6_volatility_constant_series_witness :
    volAt (c6tbl.take 2) { c6base with date := ⟨2023, 1, 3⟩ } = RVal.nan ∧
    volAt (c6tbl.take 9) c6row10 = RVal.val 0 := by
  constructor
  · exact (C6_volatility_constant_series c6tbl (c6tbl.take 2)
      { c6base with date := ⟨2023, 1, 3⟩ } 500).2.1 (by decide)
  · exact (C6_volatility_constant_series c6tbl (c6tbl.take 9) c6row10
      500).2.2 (by decide) (by decide) (by decide)

theorem gvals_last (pre : List MonthlyRow) (m : MonthlyRow) :
    (gvals pre m).getD ((gvals pre m).length - 1) 0 = (m.registrations : ℚ) := by
  unfold gvals
  rw [List.length_append]
  simp only [List.length_cons, List.length_nil, Nat.add_sub_cancel]
  exact getD_concat _ _ _

theorem yoy_of_mem_growth (l : List RowA) (pre : List MonthlyRow)
    (m : MonthlyRow) (r : RowB)
    (hpm : (pre, m) ∈ withBefore [] (monthly_agg l))
    (hr : r ∈ add_growth_rates l) (hkey : mKey r.toRowA = mrKey m) :
    r.yoy_growth = lagPct (gvals pre m) 12 := by
  rw [add_growth_rates_eq_map] at hr
  rcases List.mem_map.mp hr with ⟨ra, _, rfl⟩
  show (growthFor l ra).yoy_growth = _
  have hk : mKey ra = mrKey m := hkey
  have hgm : growthRow pre m ∈ monthly_growth (monthly_agg l) :=
    List.mem_map_of_mem (fun p => growthRow p.1 p.2) hpm
  have hnd : ((monthly_growth (monthly_agg l)).map
      (fun x => mrKey x.toMonthlyRow)).Nodup := by
    rw [mg_keys]
    exact nodup_aggKeys l
  have hfe : (monthly_growth (monthly_agg l)).filter
      (fun x => decide (mrKey x.toMonthlyRow = mrKey m)) = [growthRow pre m] :=
    filter_key_eq_singleton (fun x => mrKey x.toMonthlyRow)
      (monthly_growth (monthly_agg l)) (growthRow pre m) hgm hnd
  unfold growthFor
  rw [hk, hfe]
  rfl

/-- C2: for a data row `r` whose `(state, category, month)` key is that of
the monthly-aggregate row `m` (whose earlier same-group aggregate rows are
listed in `pre`), the joined `yoy_growth` equals `pct_change(12) * 100` over
the group history `gvals pre m` (earlier monthly sums then `m`'s own sum
last).  Consequently it is NaN on every row of the first 12 months of the
series (never a synthetic zero), and on a later month with a nonzero sum
`prev` twelve monthly periods earlier it equals
`(curr - prev) / prev * 100` where `curr` is the row's monthly sum.  Within
a group the aggregate rows are in ascending month order, since pandas
`groupby` sorts the aggregate by key. -/
theorem C2_yoy_growth_semantics (l : List RowA) (pre : List MonthlyRow)
    (m : MonthlyRow) (r : RowB)
    (hpm : (pre, m) ∈ withBefore [] (monthly_agg l))
    (hr : r ∈ add_growth_rates l)
    (hkey : mKey r.toRowA = mrKey m) :
    r.yoy_growth = lagPct (gvals pre m) 12 ∧
    ((gvals pre m).length ≤ 12 → r.yoy_growth = PVal.nan) ∧
    (∀ prev : ℚ, 12 < (gvals pre m).length →
      prev = (gvals pre m).getD ((gvals pre m).length - 1 - 12) 0 →
      prev ≠ 0 →
      r.yoy_growth = PVal.val (((m.registrations : ℚ) - prev) / prev * 100)) := by
  have hA := yoy_of_mem_growth l pre m r hpm hr hkey
  refine ⟨hA, ?_, ?_⟩
  · intro hlen
    rw [hA]
    unfold lagPct
    rw [if_pos hlen]
  · intro prev hlen hprev hpz
    rw [hA]
    unfold lagPct
    rw [if_neg (by omega), gvals_last, ← hprev]
    unfold pctChange qdivP
    rw [if_neg hpz]
    show PVal.times100 (.val ((m.registrations : ℚ) / prev - 1)) = _
    unfold PVal.times100
    field_simp

/-- One raw row of the C2 witness series. -/
def c2mk (y : Int) (mo : Nat) (n : Int) : RawRow :=
  { date := ⟨y, mo, 1⟩, state := "MH", category := "2W", registrations := n
    manufacturer := "H" }

/-- Thirteen consecutive monthly observations of one `(state, category)`
series: sum 100 in each of the twelve months of 2021, 110 in 2022-01. -/
def c2raw : List RawRow :=
  [c2mk 2021 1 100, c2mk 2021 2 100, c2mk 2021 3 100, c2mk 2021 4 100,
   c2mk 2021 5 100, c2mk 2021 6 100, c2mk 2021 7 100, c2mk 2021 8 100,
   c2mk 2021 9 100, c2mk 2021 10 100, c2mk 2021 11 100, c2mk 2021 12 100,
   c2mk 2022 1 110]

/-- Fallback rows for `getD` in the C2 witness. -/
def c2dfltM : MonthlyRow :=
  { state := "", category := "", month := 0, registrations := 0 }

/-- Fallback joined row for `getD` in the C2 witness. -/
def c2dfltB : RowB :=
  { date := ⟨0, 1, 1⟩, state := "", category := "", registrations := 0
    manufacturer := "", registrations_7d_avg := 0, registrations_30d_avg := 0
    yoy_growth := .nan, qoq_growth := .nan, mom_growth := .nan }

/-- The 13th entry of the monthly aggregate of `c2raw`, paired with its
earlier aggregate rows. -/
def c2pair : List MonthlyRow × MonthlyRow :=
  (withBefore [] (monthly_agg (add_rolling_averages c2raw))).getD 12
    ([], c2dfltM)

/-- Witness instantiating `C2_yoy_growth_semantics`: the 2022-01 row of the
processed `c2raw` (13th row after the growth join) carries
`yoy_growth = (110 - 100) / 100 * 100 = 10`, and the first row (month 1 of
the series) carries a missing `yoy_growth`. -/
theorem C2_yoy_growth_semantics_witness :
    ((add_growth_rates (add_rolling_averages c2raw)).getD 12
      c2dfltB).yoy_growth = PVal.val 10 ∧
    ((add_growth_rates (add_rolling_averages c2raw)).getD 0
      c2dfltB).yoy_growth = PVal.nan := by
  constructor
  · have h := (C2_yoy_growth_semantics (add_rolling_averages c2raw)
      c2pair.1 c2pair.2
      ((add_growth_rates (add_rolling_averages c2raw)).getD 12 c2dfltB)
      (by decide) (by decide) (by decide)).2.2 100
      (by decide) (by decide) (by decide)
    rw [h]
    decide
  · have h := (C2_yoy_growth_semantics (add_rolling_averages c2raw)
      ((withBefore [] (monthly_agg (add_rolling_averages c2raw))).getD 0
        ([], c2dfltM)).1
      ((withBefore [] (monthly_agg (add_rolling_averages c2raw))).getD 0
        ([], c2dfltM)).2
      ((add_growth_rates (add_rolling_averages c2raw)).getD 0 c2dfltB)
      (by decide) (by decide) (by decide)).2.1 (by decide)
    exact h

/-! ### Support lemmas for the market-share sums (C3) -/

theorem headD_const {β : Type} (l : List β) (d0 v : β) (hne : l ≠ [])
    (h : ∀ x ∈ l, x = v) : l.headD d0 = v := by
  cases l with
  | nil => exact absurd rfl hne
  | cons a t => exact h a (by simp)

theorem sum_map_div_mul (L : List α) (f : α → ℚ) (T c : ℚ) :
    (L.map (fun a => f a / T * c)).sum = (L.map f).sum / T * c := by
  induction L with
  | nil => simp
  | cons a t ih =>
    simp only [List.map_cons, List.sum_cons, ih]
    ring

theorem sum_map_cast (L : List α) (v : α → ℤ) :
    (L.map (fun a => (v a : ℚ))).sum = ((L.map v).sum : ℚ) := by
  rw [Int.cast_list_sum, List.map_map]
  rfl

theorem qdivP_times100 {T : ℚ} (hT : T ≠ 0) (x : ℚ) :
    (qdivP x T).times100 = PVal.val (x / T * 100) := by
  unfold qdivP
  rw [if_neg hT]
  rfl

theorem base_of_lB (raw : List RawRow) :
    (add_growth_rates (add_rolling_averages raw)).map (fun r => r.toRawRow) =
      sortRows raw := by
  rw [add_growth_rates_eq_map]
  unfold add_rolling_averages
  rw [List.map_map, List.map_map]
  exact withBefore_map_snd (sortRows raw) []

theorem process_eq_map (raw : List RawRow) :
    process_registration_data raw =
      (add_growth_rates (add_rolling_averages raw)).map
        (fun rb => perfRow (marketJoinRow
          (add_growth_rates (add_rolling_averages raw)) rb)) := by
  unfold process_registration_data add_performance_indicators
  rw [add_market_shares_eq_map, List.map_map]
  rfl

theorem proc_filter_date (raw : List RawRow) (d : Date) :
    (process_registration_data raw).filter (fun r => decide (r.date = d)) =
      ((add_growth_rates (add_rolling_averages raw)).filter
        (fun rb => decide (rb.date = d))).map
        (fun rb => perfRow (marketJoinRow
          (add_growth_rates (add_rolling_averages raw)) rb)) := by
  rw [process_eq_map, List.filter_map]
  rfl

theorem proc_filter_date_state (raw : List RawRow) (d : Date) (s : String) :
    (process_registration_data raw).filter
      (fun r => decide (r.date = d ∧ r.state = s)) =
      ((add_growth_rates (add_rolling_averages raw)).filter
        (fun rb => decide (rb.date = d ∧ rb.state = s))).map
        (fun rb => perfRow (marketJoinRow
          (add_growth_rates (add_rolling_averages raw)) rb)) := by
  rw [process_eq_map, List.filter_map]
  rfl

theorem dailyTotal_eq_raw_sum (raw : List RawRow) (d : Date) :
    dailyTotalOf (add_growth_rates (add_rolling_averages raw)) d =
      ((raw.filter (fun r => decide (r.date = d))).map
        (fun r => r.registrations)).sum := by
  unfold dailyTotalOf
  have h1 : ((add_growth_rates (add_rolling_averages raw)).filter
      (fun r => decide (r.date = d))).map (fun r => r.registrations) =
      (((add_growth_rates (add_rolling_averages raw)).map
        (fun r => r.toRawRow)).filter (fun r => decide (r.date = d))).map
        (fun r => r.registrations) := by
    rw [List.filter_map, List.map_map]
    rfl
  rw [h1, base_of_lB]
  exact (((List.perm_insertionSort rowLE raw).filter
    (fun r => decide (r.date = d))).map (fun r => r.registrations)).sum_eq

theorem filter_both_eq (lB : List RowB) (d : Date) (s : String) :
    lB.filter (fun a => decide (a.date = d ∧ a.state = s)) =
      (lB.filter (fun a => decide (a.date = d))).filter
        (fun a => decide (a.state = s)) := by
  rw [List.filter_filter]
  apply List.filter_congr
  intro a _
  by_cases h1 : a.date = d <;> by_cases h2 : a.state = s <;> simp [h1, h2]

/-- Distinct states among the processed rows of one date (each state counted
once). -/
def statesOn (P : List ProcRow) (d : Date) : List String :=
  ((P.filter (fun r => decide (r.date = d))).map (fun r => r.state)).dedup

/-- The `state_market_share` cell of `(date, state)` — every row of that pair
carries the same value; read off the first. -/
def stateShareOf (P : List ProcRow) (d : Date) (s : String) : PVal :=
  ((P.filter (fun r => decide (r.date = d ∧ r.state = s))).map
    (fun r => r.state_market_share)).headD PVal.nan

/-- Raw table for the C3 counterexample: a single row with 0 registrations,
so its date's total is 0. -/
def c3raw : List RawRow :=
  [{ date := ⟨2021, 3, 5⟩, state := "Maharashtra", category := "2W",
     registrations := 0, manufacturer := "Hero MotoCorp" }]

/-- C3 counterexample: on a date whose total registrations are 0, every
`category_market_share` is `0/0 = NaN`, and the pandas (skip-NaN) sum of the
shares over that date is 0, not 100 — so the claimed identity fails for such
dates. -/
theorem C3_counterexample_zero_total :
    pvalSum (((process_registration_data c3raw).filter
      (fun r => decide (r.date = (⟨2021, 3, 5⟩ : Date)))).map
      (fun r => r.category_market_share)) = PVal.val 0 ∧
    PVal.val 0 ≠ PVal.val 100 := by
  constructor
  · decide
  · decide

/-- C3 as amended: for every date whose total registrations (over the rows of
the raw table carrying that date) are nonzero, the processed table's
`category_market_share` summed over all rows of that date equals exactly 100,
and `state_market_share` summed over the distinct states of that date (each
state counted once) equals exactly 100.  (A zero-total date instead yields
NaN shares whose skip-NaN sum is 0, see the counterexample.) -/
theorem C3_market_share_sums (raw : List RawRow) (d : Date)
    (hnz : ((raw.filter (fun r => decide (r.date = d))).map
      (fun r => r.registrations)).sum ≠ 0) :
    pvalSum (((process_registration_data raw).filter
      (fun r => decide (r.date = d))).map
      (fun r => r.category_market_share)) = PVal.val 100 ∧
    pvalSum ((statesOn (process_registration_data raw) d).map
      (stateShareOf (process_registration_data raw) d)) = PVal.val 100 := by
  have hT := dailyTotal_eq_raw_sum raw d
  have hTnz : dailyTotalOf (add_growth_rates (add_rolling_averages raw)) d ≠ 0 := by
    rw [hT]
    exact hnz
  have hTq : ((dailyTotalOf (add_growth_rates (add_rolling_averages raw)) d : ℤ) : ℚ) ≠ 0 :=
    Int.cast_ne_zero.mpr hTnz
  constructor
  · rw [proc_filter_date, List.map_map]
    have hmc : ∀ rb ∈ (add_growth_rates (add_rolling_averages raw)).filter
        (fun x => decide (x.date = d)),
        ((fun r : ProcRow => r.category_market_share) ∘
          (fun rb => perfRow (marketJoinRow
            (add_growth_rates (add_rolling_averages raw)) rb))) rb =
          PVal.val ((rb.registrations : ℚ) /
            ((dailyTotalOf (add_growth_rates (add_rolling_averages raw)) d : ℤ) : ℚ)
            * 100) := by
      intro rb hrb
      have hd : rb.date = d := of_decide_eq_true (List.mem_filter.mp hrb).2
      show (qdivP (rb.registrations : ℚ)
        ((dailyTotalOf (add_growth_rates (add_rolling_averages raw)) rb.date : ℤ) : ℚ)).times100 = _
      rw [hd]
      exact qdivP_times100 hTq _
    rw [List.map_congr_left hmc, pvalSum_map_val]
    congr 1
    rw [sum_map_div_mul]
    have hc : (((add_growth_rates (add_rolling_averages raw)).filter
        (fun x => decide (x.date = d))).map
        (fun rb => (rb.registrations : ℚ))).sum =
        ((dailyTotalOf (add_growth_rates (add_rolling_averages raw)) d : ℤ) : ℚ) := by
      rw [sum_map_cast]
      rfl
    rw [hc, div_self hTq, one_mul]
  · have hstates : statesOn (process_registration_data raw) d =
        (((add_growth_rates (add_rolling_averages raw)).filter
          (fun x => decide (x.date = d))).map (fun rb => rb.state)).dedup := by
      unfold statesOn
      rw [proc_filter_date, List.map_map]
      rfl
    rw [hstates]
    have hshare : ∀ s ∈ (((add_growth_rates (add_rolling_averages raw)).filter
        (fun x => decide (x.date = d))).map (fun rb => rb.state)).dedup,
        stateShareOf (process_registration_data raw) d s =
          PVal.val ((stateDailySum (add_growth_rates (add_rolling_averages raw)) d s : ℚ) /
            ((dailyTotalOf (add_growth_rates (add_rolling_averages raw)) d : ℤ) : ℚ) * 100) := by
      intro s hs
      unfold stateShareOf
      rw [proc_filter_date_state, List.map_map]
      rcases List.mem_map.mp (List.mem_dedup.mp hs) with ⟨rb, hrbL, hrbs⟩
      have hd : rb.date = d := of_decide_eq_true (List.mem_filter.mp hrbL).2
      have hrbB : rb ∈ (add_growth_rates (add_rolling_averages raw)).filter
          (fun a => decide (a.date = d ∧ a.state = s)) :=
        List.mem_filter.mpr ⟨List.mem_of_mem_filter hrbL,
          decide_eq_true ⟨hd, hrbs⟩⟩
      apply headD_const
      · intro hemp
        rw [List.map_eq_nil_iff] at hemp
        exact List.ne_nil_of_mem hrbB hemp
      · intro x hx
        rcases List.mem_map.mp hx with ⟨rb2, hrb2, rfl⟩
        have h2 : rb2.date = d ∧ rb2.state = s :=
          of_decide_eq_true (List.mem_filter.mp hrb2).2
        show (qdivP (stateDailySum (add_growth_rates (add_rolling_averages raw))
          rb2.date rb2.state : ℚ)
          ((dailyTotalOf (add_growth_rates (add_rolling_averages raw)) rb2.date : ℤ) : ℚ)).times100 = _
        rw [h2.1, h2.2]
        exact qdivP_times100 hTq _
    rw [List.map_congr_left hshare, pvalSum_map_val]
    congr 1
    rw [sum_map_div_mul]
    have hfib : ∀ s : String,
        stateDailySum (add_growth_rates (add_rolling_averages raw)) d s =
        ((((add_growth_rates (add_rolling_averages raw)).filter
          (fun x => decide (x.date = d))).filter
          (fun a => decide (a.state = s))).map (fun r => r.registrations)).sum := by
      intro s
      unfold stateDailySum
      rw [filter_both_eq]
    have hpart : ((((add_growth_rates (add_rolling_averages raw)).filter
        (fun x => decide (x.date = d))).map (fun rb => rb.state)).dedup.map
        (fun s => (stateDailySum (add_growth_rates (add_rolling_averages raw)) d s : ℚ))).sum =
        ((dailyTotalOf (add_growth_rates (add_rolling_averages raw)) d : ℤ) : ℚ) := by
      rw [sum_map_cast]
      have hm : (((add_growth_rates (add_rolling_averages raw)).filter
          (fun x => decide (x.date = d))).map (fun rb => rb.state)).dedup.map
          (fun s => stateDailySum (add_growth_rates (add_rolling_averages raw)) d s) =
          (((add_growth_rates (add_rolling_averages raw)).filter
          (fun x => decide (x.date = d))).map (fun rb => rb.state)).dedup.map
          (fun s => ((((add_growth_rates (add_rolling_averages raw)).filter
            (fun x => decide (x.date = d))).filter
            (fun a => decide (a.state = s))).map (fun r => r.registrations)).sum) :=
        List.map_congr_left (fun s _ => hfib s)
      rw [hm]
      have hsd := sum_dedup_fibers (fun rb : RowB => rb.state)
        (fun r : RowB => r.registrations)
        ((add_growth_rates (add_rolling_averages raw)).filter
          (fun x => decide (x.date = d)))
      rw [hsd]
      rfl
    rw [hpart, div_self hTq, one_mul]

/-- Raw table for the C3 witness: one date, two states, total 100. -/
def c3wraw : List RawRow :=
  [{ date := ⟨2021, 4, 1⟩, state := "Maharashtra", category := "2W",
     registrations := 30, manufacturer := "Hero MotoCorp" },
   { date := ⟨2021, 4, 1⟩, state := "Maharashtra", category := "4W",
     registrations := 20, manufacturer := "Kia" },
   { date := ⟨2021, 4, 1⟩, state := "Karnataka", category := "2W",
     registrations := 50, manufacturer := "Honda" }]

/-- Witness instantiating `C3_market_share_sums` on `c3wraw`. -/
theorem C3_market_share_sums_witness :
    pvalSum (((process_registration_data c3wraw).filter
      (fun r => decide (r.date = (⟨2021, 4, 1⟩ : Date)))).map
      (fun r => r.category_market_share)) = PVal.val 100 ∧
    pvalSum ((statesOn (process_registration_data c3wraw) ⟨2021, 4, 1⟩).map
      (stateShareOf (process_registration_data c3wraw) ⟨2021, 4, 1⟩)) =
      PVal.val 100 :=
  C3_market_share_sums c3wraw ⟨2021, 4, 1⟩ (by decide)
